import Mathlib

/-!
Shallow embedding of `compileyeastdatabase/Database/DatabaseApi.py`.

Tables are lists of typed rows; nullable SQL columns become `Option` fields.
The two SQL views (`region_background_agg`, `total_bg_hops`) are modelled as
functions of the base-table contents, following the SQL text in
`create_region_background_view`.  SQL three-valued logic is reflected by
making comparisons involving NULL (`none`) fail, and `GROUP BY` treats NULL
keys as equal, as SQLite does.
-/

namespace CompileYeastCC

/-- A row of the `chr_map` table.  Schema (from `add_chr_map`): five TEXT
UNIQUE naming columns, `seqlength INTEGER NOT NULL`, `numbered TEXT UNIQUE`,
PRIMARY KEY (`ucsc`).  All columns except `seqlength` admit NULL, hence
`Option`. -/
structure ChrMapRow where
  refseq : Option String
  igenomes : Option String
  ensembl : Option String
  ucsc : Option String
  mitra : Option String
  seqlength : Option Int
  numbered : Option String
deriving DecidableEq, Repr

/-- A row of the `background` table (see `add_background`):
`id INTEGER PRIMARY KEY`, `chr TEXT`, `start INTEGER`, `end INTEGER`,
`depth INTEGER`, `strand TEXT`, `annotation TEXT`, `sample TEXT`. -/
structure BackgroundRow where
  id : Option Int
  chr : Option String
  start : Option Int
  «end» : Option Int
  depth : Option Int
  strand : Option String
  annot : Option String
  sample : Option String
deriving DecidableEq, Repr

/-- A row of the `regions` table (see `add_regions`):
`id INTEGER PRIMARY KEY`, `chr TEXT`, `start INTEGER`, `end INTEGER`,
`name TEXT`, `score REAL`, `strand TEXT`, `sample TEXT`,
`common_name TEXT DEFAULT 'none'`. -/
structure RegionRow where
  id : Option Int
  chr : Option String
  start : Option Int
  «end» : Option Int
  name : Option String
  score : Option Rat
  strand : Option String
  sample : Option String
  common_name : Option String
deriving DecidableEq, Repr

/-- The WHERE clause of the `region_background_agg` view:
`x.chr = r.chr AND x.start BETWEEN r.start AND r.end`.
Under SQL three-valued logic a comparison with NULL is not TRUE, so any
NULL among the compared columns makes the row fail the filter. -/
def sqlMatch (x : BackgroundRow) (r : RegionRow) : Bool :=
  match x.chr, r.chr, x.start, r.start, r.«end» with
  | some xc, some rc, some xs, some rs, some re =>
      decide (xc = rc) && decide (rs ≤ xs) && decide (xs ≤ re)
  | _, _, _, _, _ => false

/-- `FROM regions as r LEFT JOIN background as x WHERE (x.chr = r.chr AND
x.start BETWEEN r.start AND r.end)`.  The join has no ON clause, so it
pairs every region with every background row; the WHERE filter then keeps
exactly the matching pairs (NULL-extended rows produced by the left join
never satisfy the WHERE clause, so the result is the filtered product). -/
def matched_pairs (regions : List RegionRow) (background : List BackgroundRow) :
    List (RegionRow × BackgroundRow) :=
  regions.flatMap (fun r =>
    (background.filter (fun x => sqlMatch x r)).map (fun x => (r, x)))

/-- The composite grouping key of the view:
`GROUP BY regions_sample, background_sample, r.chr, r.start, r.end, r.id`. -/
structure AggKey where
  regions_sample : Option String
  background_sample : Option String
  chr : Option String
  start : Option Int
  «end» : Option Int
  region_id : Option Int
deriving DecidableEq, Repr

/-- Grouping key of one matched (region, background) pair. -/
def key_of (p : RegionRow × BackgroundRow) : AggKey :=
  { regions_sample := p.1.sample
    background_sample := p.2.sample
    chr := p.1.chr
    start := p.1.start
    «end» := p.1.«end»
    region_id := p.1.id }

/-- The distinct grouping keys of the view (one group per distinct key). -/
def group_keys (regions : List RegionRow) (background : List BackgroundRow) :
    List AggKey :=
  ((matched_pairs regions background).map key_of).dedup

/-- One output row of the `region_background_agg` view. -/
structure AggRow where
  chr : Option String
  start : Option Int
  «end» : Option Int
  background_hops : Nat
  regions_sample : Option String
  background_sample : Option String
  region_id : Option Int
  associated_feature_systematic_id : Option String
  associated_feature_common_name : Option String
deriving DecidableEq, Repr

/-- The grouping key carried by a view row. -/
def row_key (row : AggRow) : AggKey :=
  { regions_sample := row.regions_sample
    background_sample := row.background_sample
    chr := row.chr
    start := row.start
    «end» := row.«end»
    region_id := row.region_id }

/-- The view row of one group: `COUNT(*)` over the group becomes
`background_hops`; the bare columns `r.name` and `r.common_name` are taken
from a row of the group (SQLite takes them from some row of the group; with
`r.id` in the grouping key the choice is immaterial for unique ids). -/
def mk_agg_row (regions : List RegionRow) (background : List BackgroundRow)
    (k : AggKey) : AggRow :=
  let grp := (matched_pairs regions background).filter
    (fun p => decide (key_of p = k))
  { chr := k.chr
    start := k.start
    «end» := k.«end»
    background_hops := grp.length
    regions_sample := k.regions_sample
    background_sample := k.background_sample
    region_id := k.region_id
    associated_feature_systematic_id :=
      match grp.head? with
      | some p => p.1.name
      | none => none
    associated_feature_common_name :=
      match grp.head? with
      | some p => p.1.common_name
      | none => none }

/-- `a < b` on nullable columns for ORDER BY ASC: SQLite sorts NULLs first. -/
def optLt {α : Type} [LinearOrder α] : Option α → Option α → Bool
  | none, none => false
  | none, some _ => true
  | some _, none => false
  | some a, some b => decide (a < b)

/-- `a ≤ b` on nullable columns for ORDER BY ASC (NULLs first). -/
def optLe {α : Type} [LinearOrder α] : Option α → Option α → Bool
  | none, _ => true
  | some _, none => false
  | some a, some b => decide (a ≤ b)

/-- One step of a lexicographic comparison: strictly smaller on this column,
or equal on it and smaller-or-equal on the remaining columns. -/
def lexStep {α : Type} [LinearOrder α] (x y : Option α) (rest : Bool) : Bool :=
  optLt x y || (decide (x = y) && rest)

/-- `ORDER BY regions_sample, background_sample, chr, start` (all ASC). -/
def aggLe (a b : AggRow) : Bool :=
  lexStep a.regions_sample b.regions_sample <|
  lexStep a.background_sample b.background_sample <|
  lexStep a.chr b.chr <|
  optLe a.start b.start

/-- The ORDER BY relation of the view, as a proposition. -/
def viewLe (a b : AggRow) : Prop := aggLe a b = true

instance : DecidableRel viewLe := fun a b => decEq (aggLe a b) true

/-- The `region_background_agg` view: group the matched pairs by the
composite key, build one counted row per group, and ORDER BY the four-part
key. -/
def region_background_agg (regions : List RegionRow)
    (background : List BackgroundRow) : List AggRow :=
  ((group_keys regions background).map
    (mk_agg_row regions background)).insertionSort viewLe

/-- One output row of the `total_bg_hops` view. -/
structure TotalRow where
  sample : Option String
  hops : Nat
deriving DecidableEq, Repr

/-- The `total_bg_hops` view:
`SELECT sample, COUNT(*) as hops FROM background GROUP BY sample`. -/
def total_bg_hops (background : List BackgroundRow) : List TotalRow :=
  ((background.map (fun x => x.sample)).dedup).map
    (fun s => { sample := s
                hops := background.countP (fun x => decide (x.sample = s)) })

/-! ## Database state, loading and provisioning -/

/-- Errors surfaced by the engine while provisioning. -/
inductive DbError
  /-- `CREATE TABLE` (without IF NOT EXISTS) against an existing table. -/
  | tableExists (name : String)
  /-- A row violates a NOT NULL or UNIQUE constraint during append. -/
  | loadError
deriving DecidableEq, Repr

/-- The state of the database file: each base table is `none` until its
`CREATE TABLE` has run, then `some` its row list.  The two views are not
state: they are named queries, modelled by the functions above. -/
structure Db where
  chr_map : Option (List ChrMapRow)
  background : Option (List BackgroundRow)
  regions : Option (List RegionRow)
deriving DecidableEq, Repr

/-- A freshly created, empty database file. -/
def emptyDb : Db := { chr_map := none, background := none, regions := none }

/-- SQL UNIQUE check for one nullable TEXT column of `chr_map`: a NULL never
conflicts; a non-NULL value must not already be present in the column. -/
def uniqueOk (f : ChrMapRow → Option String) (tbl : List ChrMapRow)
    (row : ChrMapRow) : Bool :=
  match f row with
  | none => true
  | some v => tbl.all (fun t => decide (f t ≠ some v))

/-- The `chr_map` schema constraints on one inserted row: `seqlength INTEGER
NOT NULL`, and UNIQUE on each of the six TEXT columns (`ucsc` is both UNIQUE
and the PRIMARY KEY; a TEXT primary key adds no further check in SQLite). -/
def chr_map_row_ok (tbl : List ChrMapRow) (row : ChrMapRow) : Bool :=
  row.seqlength.isSome &&
  uniqueOk (fun t => t.refseq) tbl row &&
  uniqueOk (fun t => t.igenomes) tbl row &&
  uniqueOk (fun t => t.ensembl) tbl row &&
  uniqueOk (fun t => t.ucsc) tbl row &&
  uniqueOk (fun t => t.mitra) tbl row &&
  uniqueOk (fun t => t.numbered) tbl row

/-- Append one row to `chr_map`, enforcing the schema constraints. -/
def chr_map_insert (tbl : List ChrMapRow) (row : ChrMapRow) :
    Except DbError (List ChrMapRow) :=
  if chr_map_row_ok tbl row then .ok (tbl ++ [row]) else .error .loadError

/-- Append a row-set to `chr_map` row by row (`to_sql(if_exists='append')`),
stopping at the first constraint violation. -/
def chr_map_load (tbl : List ChrMapRow) :
    List ChrMapRow → Except DbError (List ChrMapRow)
  | [] => .ok tbl
  | row :: rest =>
    match chr_map_insert tbl row with
    | .ok tbl' => chr_map_load tbl' rest
    | .error e => .error e

/-- The append loop of the Bulk Loader for `background`/`regions`:
`for df in df_list: df.to_sql(..., if_exists='append')`.  Each row-set is
appended in order after the current contents.  This form elides the
engine's per-row primary-key check; `background_insert`/`background_append`
below model it, and claims about appends that can violate the key use
those. -/
def load_frames {ρ : Type} (tbl : List ρ) (df_list : List (List ρ)) : List ρ :=
  df_list.foldl (fun acc df => acc ++ df) tbl

/-- A background row with its primary key cleared: what a row looks like
disregarding the engine-assigned `id`. -/
def strip_id (row : BackgroundRow) : BackgroundRow := { row with id := none }

/-- The explicit primary-key values present in a `background` table. -/
def background_ids (tbl : List BackgroundRow) : List Int :=
  tbl.filterMap (fun t => t.id)

/-- The ROWID SQLite assigns to a NULL `id` in the rowid-alias column
`"id" INTEGER PRIMARY KEY`: one more than the largest id in use (so 1 on an
empty table). -/
def next_background_id (tbl : List BackgroundRow) : Int :=
  (background_ids tbl).foldl max 0 + 1

/-- Insert one row into `background`, enforcing `PRIMARY KEY("id")`: an
explicit id already present violates the key (IntegrityError); a NULL id is
auto-assigned, as for any INTEGER PRIMARY KEY rowid alias. -/
def background_insert (tbl : List BackgroundRow) (row : BackgroundRow) :
    Except DbError (List BackgroundRow) :=
  match row.id with
  | some v =>
    if v ∈ background_ids tbl then .error .loadError
    else .ok (tbl ++ [row])
  | none => .ok (tbl ++ [{ row with id := some (next_background_id tbl) }])

/-- One `df.to_sql('background', ..., if_exists='append')` call at the
engine level: the rows are inserted in order within one transaction, so the
first primary-key violation aborts the whole call and appends nothing (the
caller's table stands unchanged on error). -/
def background_append (tbl : List BackgroundRow) :
    List BackgroundRow → Except DbError (List BackgroundRow)
  | [] => .ok tbl
  | row :: rest =>
    match background_insert tbl row with
    | .ok tbl' => background_append tbl' rest
    | .error e => .error e

/-- `add_chr_map`: `CREATE TABLE "chr_map" ...` (a hard error if the table
already exists), then append the row-set. -/
def add_chr_map (db : Db) (chr_map_df : List ChrMapRow) : Except DbError Db :=
  match db.chr_map with
  | some _ => .error (.tableExists "chr_map")
  | none =>
    match chr_map_load [] chr_map_df with
    | .ok tbl => .ok { db with chr_map := some tbl }
    | .error e => .error e

/-- `add_background`: `CREATE TABLE "background" ...` (a hard error if the
table already exists), create the index, then append each row-set in order.
The declared FOREIGN KEY is not enforced by the engine by default.  The
appends here are the plain concatenation `load_frames`, adequate for runs
whose row-sets do not violate the `id` primary key; the engine-level
per-row check is `background_append` above. -/
def add_background (db : Db) (df_list : List (List BackgroundRow)) :
    Except DbError Db :=
  match db.background with
  | some _ => .error (.tableExists "background")
  | none => .ok { db with background := some (load_frames [] df_list) }

/-- `add_regions`: same shape as `add_background`. -/
def add_regions (db : Db) (df_list : List (List RegionRow)) :
    Except DbError Db :=
  match db.regions with
  | some _ => .error (.tableExists "regions")
  | none => .ok { db with regions := some (load_frames [] df_list) }

/-- The provisioning sequence run by the constructor once the engine is up:
`add_chr_map`, then `add_background`, then `add_regions`, then the two view
creations (drop-if-exists + create, which never fail and add no state in
this model).  Returns the database state reached together with the first
error, if any. -/
def provision_run (db : Db) (chr_map_df : List ChrMapRow)
    (background_dfs : List (List BackgroundRow))
    (regions_dfs : List (List RegionRow)) : Db × Option DbError :=
  match add_chr_map db chr_map_df with
  | .error e => (db, some e)
  | .ok db1 =>
    match add_background db1 background_dfs with
    | .error e => (db1, some e)
    | .ok db2 =>
      match add_regions db2 regions_dfs with
      | .error e => (db2, some e)
      | .ok db3 => (db3, none)

/-- The provisioning sequence as a fallible computation. -/
def provision (db : Db) (chr_map_df : List ChrMapRow)
    (background_dfs : List (List BackgroundRow))
    (regions_dfs : List (List RegionRow)) : Except DbError Db :=
  match provision_run db chr_map_df background_dfs regions_dfs with
  | (db', none) => .ok db'
  | (_, some e) => .error e

/-! ## The constructor (`DatabaseAPINew.__init__`) -/

/-- The argument passed as `db_loc`: either an object with `.resolve()`
(a `pathlib` path, which always resolves to an absolute path), or any other
object, whose missing `.resolve()` raises `AttributeError`. -/
inductive DbLocArg
  | posixPath
  | notPathlike
deriving DecidableEq, Repr

/-- Errors raised by the constructor. -/
inductive InitError
  /-- `db_loc must be a pathlib.PosixPath object` (malformed path). -/
  | attributeError
  /-- `Parent directory of ... does not exist` (missing parent). -/
  | fileNotFound
  /-- An engine error from the provisioning sequence. -/
  | dbError (e : DbError)
deriving DecidableEq, Repr

/-- The filesystem as the constructor sees it: whether the parent directory
of the resolved `db_loc` exists, and the database file (with its contents)
if one is present at `db_loc`. -/
structure FileSystem where
  parentExists : Bool
  dbFile : Option Db
deriving DecidableEq, Repr

/-- `DatabaseAPINew.__init__`: resolve the path (raising `AttributeError`
for a non-path argument), check the parent directory (raising
`FileNotFoundError` if missing), create the engine over the file (an absent
file starts empty; the file comes into existence once the first statement
runs), then provision.  Returns the resulting filesystem and the outcome. -/
def database_api_new_init (arg : DbLocArg) (fs : FileSystem)
    (chr_map_df : List ChrMapRow)
    (background_dfs : List (List BackgroundRow))
    (regions_dfs : List (List RegionRow)) :
    FileSystem × Except InitError Db :=
  match arg with
  | .notPathlike => (fs, .error .attributeError)
  | .posixPath =>
    if fs.parentExists then
      match provision_run (fs.dbFile.getD emptyDb) chr_map_df
          background_dfs regions_dfs with
      | (db', none) => ({ fs with dbFile := some db' }, .ok db')
      | (db', some e) => ({ fs with dbFile := some db' }, .error (.dbError e))
    else
      (fs, .error .fileNotFound)

/-! ## Concrete sample data (the specification's test scenario) -/

/-- The scenario chromosome row: `ucsc="chrI"`, length 230218. -/
def chrRow0 : ChrMapRow :=
  { refseq := some "chrI", igenomes := some "chrI", ensembl := some "chrI"
    ucsc := some "chrI", mitra := some "chrI", seqlength := some 230218
    numbered := some "1" }

/-- A `chr_map` row with `seqlength = 0` (still accepted by the schema). -/
def chrRowZeroLen : ChrMapRow :=
  { refseq := some "r1", igenomes := some "i1", ensembl := some "e1"
    ucsc := some "chrZ", mitra := some "m1", seqlength := some 0
    numbered := some "9" }

/-- A `chr_map` row with a NULL `seqlength` (rejected by NOT NULL). -/
def chrRowNoLen : ChrMapRow :=
  { refseq := none, igenomes := none, ensembl := none
    ucsc := some "chrN", mitra := none, seqlength := none
    numbered := none }

/-- The scenario background event: `chr="chrI", start=100, sample="bg1"`. -/
def bgRow0 : BackgroundRow :=
  { id := some 1, chr := some "chrI", start := some 100, «end» := some 100
    depth := some 1, strand := some "+", annot := none, sample := some "bg1" }

/-- The scenario background event without an explicit id: the engine
assigns the primary key on insert. -/
def bgRowNoId : BackgroundRow :=
  { id := none, chr := some "chrI", start := some 100, «end» := some 100
    depth := some 1, strand := some "+", annot := none, sample := some "bg1" }

/-- The no-overlap scenario background event: `start=300`. -/
def bgRow300 : BackgroundRow :=
  { id := some 2, chr := some "chrI", start := some 300, «end» := some 300
    depth := some 1, strand := some "+", annot := none, sample := some "bg1" }

/-- The scenario region: `chr="chrI", start=50, end=200, sample="reg1"`. -/
def regRow0 : RegionRow :=
  { id := some 1, chr := some "chrI", start := some 50, «end» := some 200
    name := some "YAL001", score := none, strand := some "+"
    sample := some "reg1", common_name := some "none" }

/-- The database state after the first `add_background` call below. -/
def dbAfterFirstBackgroundLoad : Db :=
  { chr_map := none, background := some [bgRow0], regions := none }

/-- A database file that already carries a `chr_map` table. -/
def dbWithChrMap : Db :=
  { chr_map := some [], background := none, regions := none }

/-- The database produced by provisioning the scenario data. -/
def dbScenario : Db :=
  { chr_map := some [chrRow0], background := some [bgRow0]
    regions := some [regRow0] }

/-- A filesystem whose target parent directory is missing. -/
def fsNoParent : FileSystem := { parentExists := false, dbFile := none }

/-! ## Lemmas about the embedding -/

theorem mem_matched_pairs {regions : List RegionRow}
    {background : List BackgroundRow} {p : RegionRow × BackgroundRow} :
    p ∈ matched_pairs regions background ↔
      p.1 ∈ regions ∧ p.2 ∈ background ∧ sqlMatch p.2 p.1 = true := by
  cases p with
  | mk r x =>
    simp only [matched_pairs, List.mem_flatMap, List.mem_map, List.mem_filter]
    constructor
    · rintro ⟨r', hr', x', ⟨hx', hm⟩, heq⟩
      injection heq with h1 h2
      subst h1; subst h2
      exact ⟨hr', hx', hm⟩
    · rintro ⟨hr, hx, hm⟩
      exact ⟨r, hr, x, ⟨hx, hm⟩, rfl⟩

theorem row_key_mk_agg_row (regions : List RegionRow)
    (background : List BackgroundRow) (k : AggKey) :
    row_key (mk_agg_row regions background k) = k := rfl

theorem hops_mk_agg_row (regions : List RegionRow)
    (background : List BackgroundRow) (k : AggKey) :
    (mk_agg_row regions background k).background_hops =
      ((matched_pairs regions background).filter
        (fun p => decide (key_of p = k))).length := rfl

theorem mem_region_background_agg {regions : List RegionRow}
    {background : List BackgroundRow} {row : AggRow} :
    row ∈ region_background_agg regions background ↔
      ∃ k, k ∈ group_keys regions background ∧
        row = mk_agg_row regions background k := by
  unfold region_background_agg
  rw [(List.perm_insertionSort viewLe _).mem_iff]
  simp only [List.mem_map]
  constructor
  · rintro ⟨k, hk, rfl⟩; exact ⟨k, hk, rfl⟩
  · rintro ⟨k, hk, rfl⟩; exact ⟨k, hk, rfl⟩

theorem countP_one_of_nodup {κ : Type} [DecidableEq κ] {l : List κ}
    (hnd : l.Nodup) {k : κ} (hk : k ∈ l) :
    l.countP (fun kk => decide (kk = k)) = 1 := by
  induction l with
  | nil => cases hk
  | cons a t ih =>
    rcases List.nodup_cons.mp hnd with ⟨hat, hndt⟩
    rcases List.mem_cons.mp hk with rfl | hk'
    · have hz : t.countP (fun kk => decide (kk = k)) = 0 := by
        rw [List.countP_eq_zero]
        intro b hb
        simp only [decide_eq_true_eq]
        intro hba; exact hat (hba ▸ hb)
      simp [List.countP_cons, hz]
    · have hak : ¬(a = k) := fun h => hat (h ▸ hk')
      simp [List.countP_cons, hak, ih hndt hk']

theorem filter_eq_singleton_of_nodup {κ : Type} [DecidableEq κ] {l : List κ}
    (hnd : l.Nodup) (k : κ) :
    l.filter (fun kk => decide (kk = k)) = if k ∈ l then [k] else [] := by
  induction l with
  | nil => simp
  | cons a t ih =>
    rcases List.nodup_cons.mp hnd with ⟨hat, hndt⟩
    by_cases h : a = k
    · subst h
      have hz : t.filter (fun kk => decide (kk = a)) = [] := by
        rw [List.filter_eq_nil_iff]
        intro b hb
        simp only [decide_eq_true_eq]
        intro hba; exact hat (hba ▸ hb)
      simp [List.filter_cons, hz]
    · have hmem : (k ∈ a :: t) ↔ (k ∈ t) := by
        constructor
        · intro hk
          rcases List.mem_cons.mp hk with h1 | h1
          · exact absurd h1.symm h
          · exact h1
        · exact fun hk => List.mem_cons_of_mem a hk
      have hcond : ¬(decide (a = k) = true) := by simp [h]
      rw [List.filter_cons, if_neg hcond, ih hndt]
      by_cases hkt : k ∈ t
      · rw [if_pos hkt, if_pos (hmem.mpr hkt)]
      · rw [if_neg hkt, if_neg (fun hc => hkt (hmem.mp hc))]

theorem sqlMatch_region_congr (x : BackgroundRow) {r r' : RegionRow}
    (hc : r'.chr = r.chr) (hs : r'.start = r.start)
    (he : r'.«end» = r.«end») : sqlMatch x r' = sqlMatch x r := by
  unfold sqlMatch
  rw [hc, hs, he]

theorem chr_map_load_ok {df : List ChrMapRow} :
    ∀ {tbl out : List ChrMapRow}, chr_map_load tbl df = .ok out →
      out = tbl ++ df := by
  induction df with
  | nil =>
    intro tbl out h
    simp only [chr_map_load] at h
    injection h with h
    simp [h.symm]
  | cons row rest ih =>
    intro tbl out h
    simp only [chr_map_load] at h
    cases hins : chr_map_insert tbl row with
    | ok tbl' =>
      rw [hins] at h
      have hout := ih h
      unfold chr_map_insert at hins
      by_cases hok : chr_map_row_ok tbl row = true
      · rw [if_pos hok] at hins
        injection hins with hins
        subst hins
        simp [hout]
      · rw [if_neg hok] at hins; cases hins
    | error e => rw [hins] at h; cases h

theorem load_frames_eq {ρ : Type} (df_list : List (List ρ)) :
    ∀ tbl : List ρ, load_frames tbl df_list = tbl ++ df_list.flatten := by
  induction df_list with
  | nil => intro tbl; simp [load_frames]
  | cons df rest ih =>
    intro tbl
    show load_frames (tbl ++ df) rest = _
    rw [ih]
    simp

theorem background_append_ok {df : List BackgroundRow} :
    ∀ {tbl out : List BackgroundRow}, background_append tbl df = .ok out →
      ∃ added, out = tbl ++ added ∧ added.length = df.length ∧
        added.map strip_id = df.map strip_id := by
  induction df with
  | nil =>
    intro tbl out h
    simp only [background_append] at h
    injection h with h
    exact ⟨[], by simp [h.symm], rfl, rfl⟩
  | cons row rest ih =>
    intro tbl out h
    simp only [background_append] at h
    cases hins : background_insert tbl row with
    | error e => rw [hins] at h; cases h
    | ok tbl' =>
      rw [hins] at h
      obtain ⟨added, hout, hlen, hmap⟩ := ih h
      cases hid : row.id with
      | some v =>
        simp only [background_insert, hid] at hins
        by_cases hmem : v ∈ background_ids tbl
        · rw [if_pos hmem] at hins; cases hins
        · rw [if_neg hmem] at hins
          injection hins with hins
          subst hins
          refine ⟨row :: added, ?_, ?_, ?_⟩
          · rw [hout]; simp
          · simp [hlen]
          · simp [hmap]
      | none =>
        simp only [background_insert, hid] at hins
        injection hins with hins
        subst hins
        refine ⟨{ row with id := some (next_background_id tbl) } :: added,
          ?_, ?_, ?_⟩
        · rw [hout]; simp
        · simp [hlen]
        · simp [hmap, strip_id]

theorem background_append_none_ids_ok :
    ∀ df : List BackgroundRow, (∀ row ∈ df, row.id = none) →
      ∀ tbl, ∃ out, background_append tbl df = .ok out := by
  intro df
  induction df with
  | nil => intro _ tbl; exact ⟨tbl, rfl⟩
  | cons row rest ih =>
    intro hdf tbl
    have hid : row.id = none := hdf row (List.mem_cons_self row rest)
    simp only [background_append, background_insert, hid]
    exact ih (fun r hr => hdf r (List.mem_cons_of_mem row hr)) _

/-! ## The ORDER BY comparator is transitive and total -/

theorem optLt_trans {α : Type} [LinearOrder α] {x y z : Option α}
    (h1 : optLt x y = true) (h2 : optLt y z = true) : optLt x z = true := by
  cases x <;> cases y <;> cases z <;> simp_all [optLt]
  exact lt_trans h1 h2

theorem optLt_trichot {α : Type} [LinearOrder α] (x y : Option α) :
    optLt x y = true ∨ x = y ∨ optLt y x = true := by
  cases x with
  | none => cases y <;> simp [optLt]
  | some a =>
    cases y with
    | none => simp [optLt]
    | some b =>
      rcases lt_trichotomy a b with h | h | h <;> simp [optLt, h]

theorem optLe_trans {α : Type} [LinearOrder α] {x y z : Option α}
    (h1 : optLe x y = true) (h2 : optLe y z = true) : optLe x z = true := by
  cases x <;> cases y <;> cases z <;> simp_all [optLe]
  exact le_trans h1 h2

theorem optLe_total {α : Type} [LinearOrder α] (x y : Option α) :
    optLe x y = true ∨ optLe y x = true := by
  cases x with
  | none => simp [optLe]
  | some a =>
    cases y with
    | none => simp [optLe]
    | some b => simpa [optLe] using le_total a b

theorem lexStep_trans {α : Type} [LinearOrder α] {x y z : Option α}
    {r1 r2 r3 : Bool} (hr : r1 = true → r2 = true → r3 = true)
    (h1 : lexStep x y r1 = true) (h2 : lexStep y z r2 = true) :
    lexStep x z r3 = true := by
  simp only [lexStep, Bool.or_eq_true, Bool.and_eq_true,
    decide_eq_true_eq] at h1 h2 ⊢
  rcases h1 with h1 | ⟨heq1, hr1⟩
  · rcases h2 with h2 | ⟨heq2, hr2⟩
    · exact Or.inl (optLt_trans h1 h2)
    · subst heq2; exact Or.inl h1
  · subst heq1
    rcases h2 with h2 | ⟨heq2, hr2⟩
    · exact Or.inl h2
    · subst heq2; exact Or.inr ⟨rfl, hr hr1 hr2⟩

theorem lexStep_total {α : Type} [LinearOrder α] {x y : Option α}
    {r1 r2 : Bool} (hr : r1 = true ∨ r2 = true) :
    lexStep x y r1 = true ∨ lexStep y x r2 = true := by
  simp only [lexStep, Bool.or_eq_true, Bool.and_eq_true, decide_eq_true_eq]
  rcases optLt_trichot x y with h | rfl | h
  · exact Or.inl (Or.inl h)
  · rcases hr with hr | hr
    · exact Or.inl (Or.inr ⟨rfl, hr⟩)
    · exact Or.inr (Or.inr ⟨rfl, hr⟩)
  · exact Or.inr (Or.inl h)

theorem aggLe_trans (a b c : AggRow) (h1 : aggLe a b = true)
    (h2 : aggLe b c = true) : aggLe a c = true := by
  unfold aggLe at h1 h2 ⊢
  exact lexStep_trans
    (fun p1 p2 => lexStep_trans
      (fun q1 q2 => lexStep_trans
        (fun s1 s2 => optLe_trans s1 s2) q1 q2) p1 p2) h1 h2

theorem aggLe_total (a b : AggRow) : aggLe a b = true ∨ aggLe b a = true := by
  unfold aggLe
  exact lexStep_total (lexStep_total (lexStep_total (optLe_total _ _)))

/-! ## Claims -/

/-- C5: the rows of the `region_background_agg` view are ordered ascending
by the four-part key (region sample label, background sample label,
chromosome, region start) — the view's
`ORDER BY regions_sample, background_sample, chr, start`. -/
theorem view_rows_ordered (regions : List RegionRow)
    (background : List BackgroundRow) :
    List.Sorted viewLe (region_background_agg regions background) := by
  have ht : IsTrans AggRow viewLe := ⟨fun a b c h1 h2 => aggLe_trans a b c h1 h2⟩
  have htot : IsTotal AggRow viewLe := ⟨fun a b => aggLe_total a b⟩
  exact List.sorted_insertionSort viewLe _

/-- C3: for every sample label present in `background`, `total_bg_hops` has
exactly one row for it, whose `hops` is the number of background rows with
that label; for a label absent from `background` it has no row. -/
theorem total_bg_hops_correct (background : List BackgroundRow)
    (s : Option String) :
    (s ∈ background.map (fun x => x.sample) →
      (total_bg_hops background).filter (fun row => decide (row.sample = s)) =
        [{ sample := s,
           hops := background.countP (fun x => decide (x.sample = s)) }]) ∧
    (s ∉ background.map (fun x => x.sample) →
      (total_bg_hops background).filter (fun row => decide (row.sample = s)) =
        []) := by
  have hkey : ((fun row : TotalRow => decide (row.sample = s)) ∘
      (fun s' => ({ sample := s',
                    hops := background.countP
                      (fun x => decide (x.sample = s')) } :
          TotalRow))) = fun s' => decide (s' = s) := rfl
  constructor
  · intro hs
    unfold total_bg_hops
    rw [List.filter_map, hkey,
      filter_eq_singleton_of_nodup (List.nodup_dedup _) s,
      if_pos (List.mem_dedup.mpr hs)]
    simp
  · intro hs
    unfold total_bg_hops
    rw [List.filter_map, hkey,
      filter_eq_singleton_of_nodup (List.nodup_dedup _) s,
      if_neg (fun hc => hs (List.mem_dedup.mp hc))]
    simp

/-- Witness for C3 on the scenario data: label `bg1` is present with one
counted row; label `nohit` yields no row. -/
theorem total_bg_hops_correct_witness :
    (total_bg_hops [bgRow0]).filter
        (fun row => decide (row.sample = some "bg1")) =
      [{ sample := some "bg1",
         hops := [bgRow0].countP
           (fun x => decide (x.sample = some "bg1")) }] ∧
    (total_bg_hops [bgRow0]).filter
        (fun row => decide (row.sample = some "nohit")) = [] :=
  ⟨(total_bg_hops_correct [bgRow0] (some "bg1")).1 (by decide),
   (total_bg_hops_correct [bgRow0] (some "nohit")).2 (by decide)⟩

/-- C4: after one successful provisioning run, each base table holds exactly
the concatenation of the row-sets fed to the Bulk Loader for it (row order
preserved), so its row count is the sum of the row-set row counts. -/
theorem provision_row_counts (chr_map_df : List ChrMapRow)
    (background_dfs : List (List BackgroundRow))
    (regions_dfs : List (List RegionRow)) (db : Db)
    (h : provision emptyDb chr_map_df background_dfs regions_dfs =
      .ok db) :
    db.chr_map = some chr_map_df ∧
    db.background = some background_dfs.flatten ∧
    db.regions = some regions_dfs.flatten ∧
    background_dfs.flatten.length = (background_dfs.map List.length).sum ∧
    regions_dfs.flatten.length = (regions_dfs.map List.length).sum := by
  cases hld : chr_map_load ([] : List ChrMapRow) chr_map_df with
  | error e =>
    exfalso
    simp [provision, provision_run, add_chr_map, emptyDb, hld] at h
  | ok tbl =>
    have htbl : tbl = chr_map_df := by simpa using chr_map_load_ok hld
    subst htbl
    simp only [provision, provision_run, add_chr_map, add_background,
      add_regions, emptyDb, hld, load_frames_eq, List.nil_append] at h
    injection h with h
    subst h
    refine ⟨rfl, rfl, rfl, ?_, ?_⟩ <;> simp

/-- Witness for C4 on the scenario data. -/
theorem provision_row_counts_witness :
    dbScenario.chr_map = some [chrRow0] ∧
    dbScenario.background = some [[bgRow0]].flatten ∧
    dbScenario.regions = some [[regRow0]].flatten ∧
    [[bgRow0]].flatten.length = ([[bgRow0]].map List.length).sum ∧
    [[regRow0]].flatten.length = ([[regRow0]].map List.length).sum :=
  provision_row_counts [chrRow0] [[bgRow0]] [[regRow0]] dbScenario rfl

/-- C6 counterexample: invoking `add_background` a second time on the same
database does not accumulate duplicate rows — its `CREATE TABLE` (without
IF NOT EXISTS) fails because the table already exists, so the second call
raises and the table is left with a single copy. -/
theorem add_background_twice_errors :
    add_background emptyDb [[bgRow0]] = .ok dbAfterFirstBackgroundLoad ∧
    add_background dbAfterFirstBackgroundLoad [[bgRow0]] =
      .error (DbError.tableExists "background") :=
  ⟨rfl, rfl⟩

/-- C6 amended: the Bulk Loader never replaces rows — a successful append
adds all its rows after the existing contents; re-running an append whose
rows carry no explicit id (the engine auto-assigns the primary key)
succeeds and leaves the table holding both copies; but re-appending a row
whose explicit id is already present violates the primary key and appends
nothing, and `add_background` as a whole cannot be invoked twice on the
same database: its `CREATE TABLE` fails with a table-already-exists error
before any append. -/
theorem background_append_semantics (tbl : List BackgroundRow)
    (df : List BackgroundRow) (db : Db) :
    (∀ out, background_append tbl df = .ok out →
      ∃ added, out = tbl ++ added ∧ added.length = df.length ∧
        added.map strip_id = df.map strip_id) ∧
    ((∀ row ∈ df, row.id = none) →
      ∃ tbl1 tbl2, background_append tbl df = .ok tbl1 ∧
        background_append tbl1 df = .ok tbl2 ∧
        tbl2.length = tbl.length + df.length + df.length ∧
        tbl2.map strip_id =
          tbl.map strip_id ++ df.map strip_id ++ df.map strip_id) ∧
    (∀ row rest v, row.id = some v → v ∈ background_ids tbl →
      background_append tbl (row :: rest) = .error .loadError) ∧
    (∀ rows, db.background = some rows →
      add_background db [df] = .error (.tableExists "background")) := by
  refine ⟨fun out h => background_append_ok h, ?_, ?_, ?_⟩
  · intro hdf
    obtain ⟨tbl1, h1⟩ := background_append_none_ids_ok df hdf tbl
    obtain ⟨tbl2, h2⟩ := background_append_none_ids_ok df hdf tbl1
    obtain ⟨a1, e1, l1, m1⟩ := background_append_ok h1
    obtain ⟨a2, e2, l2, m2⟩ := background_append_ok h2
    refine ⟨tbl1, tbl2, h1, h2, ?_, ?_⟩
    · subst e2; subst e1
      simp only [List.length_append]
      rw [l1, l2]
    · subst e2; subst e1
      simp [List.map_append, m1, m2]
  · intro row rest v hv hmem
    simp only [background_append, background_insert, hv]
    simp [hmem]
  · intro rows hr
    unfold add_background
    rw [hr]

/-- Witness for the amended C6: appending the id-free scenario row twice on
top of `[bgRow0]` accumulates both copies; re-appending `bgRow0` itself
(explicit id 1, already present) raises; a second `add_background` call
fails on CREATE TABLE. -/
theorem background_append_semantics_witness :
    (∀ out, background_append [bgRow0] [bgRowNoId] = .ok out →
      ∃ added, out = [bgRow0] ++ added ∧
        added.length = [bgRowNoId].length ∧
        added.map strip_id = [bgRowNoId].map strip_id) ∧
    (∃ tbl1 tbl2, background_append [bgRow0] [bgRowNoId] = .ok tbl1 ∧
      background_append tbl1 [bgRowNoId] = .ok tbl2 ∧
      tbl2.length =
        [bgRow0].length + [bgRowNoId].length + [bgRowNoId].length ∧
      tbl2.map strip_id = [bgRow0].map strip_id ++
        [bgRowNoId].map strip_id ++ [bgRowNoId].map strip_id) ∧
    background_append [bgRow0] (bgRow0 :: []) = .error .loadError ∧
    add_background dbAfterFirstBackgroundLoad [[bgRowNoId]] =
      .error (.tableExists "background") :=
  ⟨(background_append_semantics [bgRow0] [bgRowNoId]
      dbAfterFirstBackgroundLoad).1,
   (background_append_semantics [bgRow0] [bgRowNoId]
      dbAfterFirstBackgroundLoad).2.1 (by decide),
   (background_append_semantics [bgRow0] [bgRowNoId]
      dbAfterFirstBackgroundLoad).2.2.1 bgRow0 [] 1 rfl (by decide),
   (background_append_semantics [bgRow0] [bgRowNoId]
      dbAfterFirstBackgroundLoad).2.2.2 [bgRow0] rfl⟩

/-- C7: if the target database already contains one of the tables that the
Schema Builder creates (`chr_map`, `background` or `regions`), its
`CREATE TABLE` raises an error and provisioning aborts: no provisioning run
over such a database can succeed, and an existing `chr_map` surfaces as the
table-already-exists error directly. -/
theorem provision_aborts_on_existing_table (db : Db)
    (chr_map_df : List ChrMapRow)
    (background_dfs : List (List BackgroundRow))
    (regions_dfs : List (List RegionRow))
    (h : db.chr_map ≠ none ∨ db.background ≠ none ∨ db.regions ≠ none) :
    (∀ t, db.chr_map = some t →
      provision db chr_map_df background_dfs regions_dfs =
        .error (.tableExists "chr_map")) ∧
    ∀ db', provision db chr_map_df background_dfs regions_dfs ≠
      .ok db' := by
  constructor
  · intro t ht
    simp [provision, provision_run, add_chr_map, ht]
  · intro db' hok
    rcases h with h | h | h
    · obtain ⟨t, ht⟩ := Option.ne_none_iff_exists'.mp h
      simp [provision, provision_run, add_chr_map, ht] at hok
    · obtain ⟨rows, hrows⟩ := Option.ne_none_iff_exists'.mp h
      cases hcm : db.chr_map with
      | some t => simp [provision, provision_run, add_chr_map, hcm] at hok
      | none =>
        cases hld : chr_map_load ([] : List ChrMapRow) chr_map_df with
        | error e =>
          simp [provision, provision_run, add_chr_map, hcm, hld] at hok
        | ok tbl =>
          simp [provision, provision_run, add_chr_map, add_background,
            hcm, hld, hrows] at hok
    · obtain ⟨rows, hrows⟩ := Option.ne_none_iff_exists'.mp h
      cases hcm : db.chr_map with
      | some t => simp [provision, provision_run, add_chr_map, hcm] at hok
      | none =>
        cases hld : chr_map_load ([] : List ChrMapRow) chr_map_df with
        | error e =>
          simp [provision, provision_run, add_chr_map, hcm, hld] at hok
        | ok tbl =>
          cases hbg : db.background with
          | some rows' =>
            simp [provision, provision_run, add_chr_map, add_background,
              hcm, hld, hbg] at hok
          | none =>
            simp [provision, provision_run, add_chr_map, add_background,
              add_regions, hcm, hld, hbg, hrows] at hok

/-- Witness for C7: a database that already carries `chr_map`. -/
theorem provision_aborts_on_existing_table_witness :
    (∀ t, dbWithChrMap.chr_map = some t →
      provision dbWithChrMap [] [] [] = .error (.tableExists "chr_map")) ∧
    ∀ db', provision dbWithChrMap [] [] [] ≠ .ok db' :=
  provision_aborts_on_existing_table dbWithChrMap [] [] []
    (Or.inl (by decide))

/-- C8: a `db_loc` argument that is not a resolvable path object fails with
the malformed-path error (`AttributeError`), and a path whose parent
directory does not exist fails with the missing-parent error
(`FileNotFoundError`); in both cases the constructor returns before any
table is created and the filesystem is untouched. -/
theorem init_path_validation (fs : FileSystem) (chr_map_df : List ChrMapRow)
    (background_dfs : List (List BackgroundRow))
    (regions_dfs : List (List RegionRow)) :
    database_api_new_init .notPathlike fs chr_map_df background_dfs
      regions_dfs = (fs, .error .attributeError) ∧
    (fs.parentExists = false →
      database_api_new_init .posixPath fs chr_map_df background_dfs
        regions_dfs = (fs, .error .fileNotFound)) := by
  constructor
  · rfl
  · intro hp
    simp [database_api_new_init, hp]

/-- Witness for C8 on a filesystem with no parent directory. -/
theorem init_path_validation_witness :
    database_api_new_init .notPathlike fsNoParent [] [] [] =
      (fsNoParent, .error .attributeError) ∧
    database_api_new_init .posixPath fsNoParent [] [] [] =
      (fsNoParent, .error .fileNotFound) :=
  ⟨(init_path_validation fsNoParent [] [] []).1,
   (init_path_validation fsNoParent [] [] []).2 rfl⟩

/-- C9 counterexample: the `chr_map` schema accepts a row whose `seqlength`
is `0` (non-positive) — only NOT NULL is declared, no positivity check. -/
theorem chr_map_accepts_nonpositive_seqlength :
    chr_map_insert [] chrRowZeroLen = .ok [chrRowZeroLen] ∧
    chrRowZeroLen.seqlength = some 0 :=
  ⟨rfl, rfl⟩

/-- C9 amended: every row accepted into `chr_map` has a non-null
`seqlength`, and a row with a missing `seqlength` is rejected; positivity is
not enforced by the schema. -/
theorem chr_map_seqlength_not_null (tbl : List ChrMapRow)
    (row : ChrMapRow) :
    (row.seqlength = none → chr_map_insert tbl row = .error .loadError) ∧
    (∀ tbl', chr_map_insert tbl row = .ok tbl' → row.seqlength ≠ none) := by
  have hfalse : row.seqlength = none → chr_map_row_ok tbl row = false := by
    intro hn
    unfold chr_map_row_ok
    rw [hn]
    simp [Option.isSome]
  constructor
  · intro hn
    unfold chr_map_insert
    rw [hfalse hn]
    rfl
  · intro tbl' hok hn
    unfold chr_map_insert at hok
    rw [hfalse hn] at hok
    cases hok

/-- Witness for the amended C9: the NULL-`seqlength` row is rejected, and an
accepted row indeed has a non-null `seqlength`. -/
theorem chr_map_seqlength_not_null_witness :
    chr_map_insert [] chrRowNoLen = .error .loadError ∧
    chrRow0.seqlength ≠ none :=
  ⟨(chr_map_seqlength_not_null [] chrRowNoLen).1 rfl,
   (chr_map_seqlength_not_null [] chrRow0).2 ([] ++ [chrRow0]) rfl⟩

/-- C10: path validation runs before the engine is created, so when the
constructor raises a path error (malformed path or missing parent) the
filesystem — in particular the database file slot — is left unchanged. -/
theorem init_path_error_leaves_fs_unchanged (arg : DbLocArg)
    (fs : FileSystem) (chr_map_df : List ChrMapRow)
    (background_dfs : List (List BackgroundRow))
    (regions_dfs : List (List RegionRow))
    (h : (database_api_new_init arg fs chr_map_df background_dfs
          regions_dfs).2 = .error .attributeError ∨
        (database_api_new_init arg fs chr_map_df background_dfs
          regions_dfs).2 = .error .fileNotFound) :
    (database_api_new_init arg fs chr_map_df background_dfs
      regions_dfs).1 = fs := by
  cases arg with
  | notPathlike => rfl
  | posixPath =>
    by_cases hp : fs.parentExists
    · exfalso
      rcases hprov : provision_run (fs.dbFile.getD emptyDb) chr_map_df
          background_dfs regions_dfs with ⟨db', oe⟩
      cases oe <;>
        simp [database_api_new_init, hp, hprov] at h
    · simp only [Bool.not_eq_true] at hp
      simp [database_api_new_init, hp]

/-- Witness for C10: the malformed-path error leaves the filesystem as it
was. -/
theorem init_path_error_leaves_fs_unchanged_witness :
    (database_api_new_init .notPathlike fsNoParent [] [] []).1 =
      fsNoParent :=
  init_path_error_leaves_fs_unchanged .notPathlike fsNoParent [] [] []
    (Or.inl rfl)

/-- C1: for every background event `x` and region `r` on the same
chromosome with `r.start ≤ x.start ≤ r.end` (closed interval, `x.end`
ignored), the view has exactly one group keyed by
(r.sample, x.sample, r.chr, r.start, r.end, r.id); its `background_hops`
counts the matching pairs of that key, among which is `x`; and every view
row stems from some chromosome-matching, in-interval pair. -/
theorem interval_join_correct (regions : List RegionRow)
    (background : List BackgroundRow) (r : RegionRow) (x : BackgroundRow)
    (c : String) (s a b : Int)
    (hr : r ∈ regions) (hx : x ∈ background)
    (hxc : x.chr = some c) (hrc : r.chr = some c)
    (hxs : x.start = some s) (hra : r.start = some a)
    (hrb : r.«end» = some b) (hab : a ≤ s) (hsb : s ≤ b) :
    ((region_background_agg regions background).filter
        (fun row => decide (row_key row = key_of (r, x)))).length = 1 ∧
    (∀ row ∈ region_background_agg regions background,
      row_key row = key_of (r, x) →
        row.background_hops =
          ((matched_pairs regions background).filter
            (fun p => decide (key_of p = key_of (r, x)))).length ∧
        (r, x) ∈ (matched_pairs regions background).filter
          (fun p => decide (key_of p = key_of (r, x)))) ∧
    (∀ row ∈ region_background_agg regions background,
      ∃ r' x', r' ∈ regions ∧ x' ∈ background ∧ sqlMatch x' r' = true ∧
        key_of (r', x') = row_key row) := by
  have hmatch : sqlMatch x r = true := by
    unfold sqlMatch
    rw [hxc, hrc, hxs, hra, hrb]
    simp [hab, hsb]
  have hpair : (r, x) ∈ matched_pairs regions background :=
    mem_matched_pairs.mpr ⟨hr, hx, hmatch⟩
  have hkmem : key_of (r, x) ∈ group_keys regions background := by
    unfold group_keys
    exact List.mem_dedup.mpr (List.mem_map.mpr ⟨(r, x), hpair, rfl⟩)
  have hnd : (group_keys regions background).Nodup := by
    unfold group_keys
    exact List.nodup_dedup _
  have hperm : List.Perm (region_background_agg regions background)
      ((group_keys regions background).map
        (mk_agg_row regions background)) :=
    List.perm_insertionSort viewLe _
  refine ⟨?_, ?_, ?_⟩
  · rw [← List.countP_eq_length_filter,
      hperm.countP_eq, List.countP_map]
    have hfun : ((fun row => decide (row_key row = key_of (r, x))) ∘
        mk_agg_row regions background) =
        fun kk => decide (kk = key_of (r, x)) := rfl
    rw [hfun]
    exact countP_one_of_nodup hnd hkmem
  · intro row hrow hkey
    obtain ⟨kk, hkk, rfl⟩ := mem_region_background_agg.mp hrow
    rw [row_key_mk_agg_row] at hkey
    subst hkey
    refine ⟨rfl, List.mem_filter.mpr ⟨hpair, by simp⟩⟩
  · intro row hrow
    obtain ⟨kk, hkk, rfl⟩ := mem_region_background_agg.mp hrow
    unfold group_keys at hkk
    obtain ⟨p, hp, hpk⟩ := List.mem_map.mp (List.mem_dedup.mp hkk)
    obtain ⟨hp1, hp2, hpm⟩ := mem_matched_pairs.mp hp
    refine ⟨p.1, p.2, hp1, hp2, hpm, ?_⟩
    rw [row_key_mk_agg_row]
    exact hpk

/-- Witness for C1 on the scenario data: one region [50, 200] on chrI and
one background event at 100 on chrI. -/
theorem interval_join_correct_witness :
    ((region_background_agg [regRow0] [bgRow0]).filter
        (fun row => decide (row_key row = key_of (regRow0, bgRow0)))).length
      = 1 ∧
    (∀ row ∈ region_background_agg [regRow0] [bgRow0],
      row_key row = key_of (regRow0, bgRow0) →
        row.background_hops =
          ((matched_pairs [regRow0] [bgRow0]).filter
            (fun p => decide (key_of p = key_of (regRow0, bgRow0)))).length ∧
        (regRow0, bgRow0) ∈ (matched_pairs [regRow0] [bgRow0]).filter
          (fun p => decide (key_of p = key_of (regRow0, bgRow0)))) ∧
    (∀ row ∈ region_background_agg [regRow0] [bgRow0],
      ∃ r' x', r' ∈ [regRow0] ∧ x' ∈ [bgRow0] ∧ sqlMatch x' r' = true ∧
        key_of (r', x') = row_key row) :=
  interval_join_correct [regRow0] [bgRow0] regRow0 bgRow0 "chrI" 100 50 200
    (by decide) (by decide) rfl rfl rfl rfl rfl (by decide) (by decide)

/-- C2: a (region, background-sample) stratum with no matching background
event yields no view row: if no event labelled `s` matches `r`, no row of
the view carries `r`'s key fields paired with background sample `s` — the
join behaves as an inner join over the match predicate. -/
theorem no_row_without_match (regions : List RegionRow)
    (background : List BackgroundRow) (r : RegionRow) (s : Option String)
    (h : ∀ x ∈ background, x.sample = s → sqlMatch x r = false) :
    ∀ row ∈ region_background_agg regions background,
      ¬(row.regions_sample = r.sample ∧ row.background_sample = s ∧
        row.chr = r.chr ∧ row.start = r.start ∧ row.«end» = r.«end» ∧
        row.region_id = r.id) := by
  rintro row hrow ⟨h1, h2, h3, h4, h5, h6⟩
  obtain ⟨kk, hkk, rfl⟩ := mem_region_background_agg.mp hrow
  unfold group_keys at hkk
  obtain ⟨p, hp, hpk⟩ := List.mem_map.mp (List.mem_dedup.mp hkk)
  obtain ⟨hp1, hp2, hpm⟩ := mem_matched_pairs.mp hp
  subst hpk
  have e2 : p.2.sample = s := h2
  have e3 : p.1.chr = r.chr := h3
  have e4 : p.1.start = r.start := h4
  have e5 : p.1.«end» = r.«end» := h5
  have hcongr : sqlMatch p.2 p.1 = sqlMatch p.2 r :=
    sqlMatch_region_congr p.2 e3 e4 e5
  rw [hcongr, h p.2 hp2 e2] at hpm
  cases hpm

/-- Witness for C2 on the no-overlap scenario: background start 300 lies
outside [50, 200], so no view row carries that stratum's key. -/
theorem no_row_without_match_witness :
    (region_background_agg [regRow0] [bgRow300]).all
      (fun row => !(decide (row.regions_sample = regRow0.sample ∧
        row.background_sample = some "bg1" ∧
        row.chr = regRow0.chr ∧ row.start = regRow0.start ∧
        row.«end» = regRow0.«end» ∧ row.region_id = regRow0.id))) = true := by
  rw [List.all_eq_true]
  intro row hrow
  have h := no_row_without_match [regRow0] [bgRow300] regRow0 (some "bg1")
    (by decide) row hrow
  simp only [Bool.not_eq_true', decide_eq_false_iff_not]
  exact h

end CompileYeastCC
